import Mathlib

/-!
Verification of the speech I/O pipeline of the interview-practice platform
(`app/services/stt_service.py`, `app/services/tts_service.py`, and the
websocket dispatcher in `app/routers/interviews.py`).

The Python code is shallowly embedded as executable Lean definitions:

* text handled character-wise by the TTS chunker is `List Char` (Python `str`
  indexing/slicing is by code point, as is `List Char`);
* floating-point timestamps are modelled as `ℚ`;
* the external collaborators (Google recognizer / synthesizer / translator)
  are modelled as oracle parameters: per-chunk provider outcomes for TTS, and
  per-generation scripts (responses plus how the connection ended) for STT;
* wall-clock comparisons (`elapsed >= ...`) are modelled as booleans recorded
  in the environment scripts at the points where the code reads the clock.

Definitions mirror the Python control flow statement by statement; the
theorems at the end of the file settle the frozen claims.
-/

/-! ## Data model shared by the STT coordinator and the websocket dispatcher -/

/-- One word of a recognizer alternative, as delivered by the provider:
protobuf `Duration` values are a whole-second part plus a nanosecond part
(`seconds` + `nanos`), see `parse_word_timestamps`. -/
structure WordInfo where
  word : String
  startSeconds : Int
  startNanos : Int
  endSeconds : Int
  endNanos : Int
  deriving DecidableEq

/-- A parsed word timing (`parse_word_timestamps` output dictionary). -/
structure WordTiming where
  word : String
  start_time : ℚ
  end_time : ℚ
  deriving DecidableEq

/-- `parse_word_timestamps`: convert the duration representation
(seconds + sub-second nanos) into a single seconds value. -/
def parse_word_timestamps (w : WordInfo) : WordTiming :=
  { word := w.word
    start_time := (w.startSeconds : ℚ) + (w.startNanos : ℚ) / 1000000000
    end_time := (w.endSeconds : ℚ) + (w.endNanos : ℚ) / 1000000000 }

/-- One alternative of a recognizer result
(`alternatives[i].{transcript, confidence, words}`). -/
structure RecAlternative where
  transcript : String
  confidence : Option ℚ
  words : List WordInfo
  deriving DecidableEq

/-- One streaming recognition result (`response.results[i]`). -/
structure RecResult where
  is_final : Bool
  alternatives : List RecAlternative
  deriving DecidableEq

/-- `TranscriptionResult` dataclass of `stt_service.py` (field for field). -/
structure TranscriptionResult where
  is_final : Bool
  transcript : String
  confidence : Option ℚ
  words : List WordTiming
  stream_number : Nat
  error : Option String := none
  warning : Option String := none
  deriving DecidableEq

/-! ## `request_generator` (stt_service.py lines 235-259)

The inner generator counts every received chunk into the session-wide byte
counter, then checks the elapsed-time limit and the byte budget, and only
then yields the chunk into the recognizer connection.  A chunk is modelled
by its byte length; the elapsed-time comparison `elapsed >= max_duration`
at each iteration is recorded as a boolean in the input. -/

/-- State of one run of `request_generator`: the byte lengths of the audio
chunks actually yielded into the connection, and the final value of the
session-wide `total_bytes_received` counter.  `total` is the counter value
carried in from previous generations of the same session. -/
def request_generator (maxBytes : Nat) :
    Nat → List (Nat × Bool) → List Nat × Nat
  | total, [] => ([], total)
  | total, (chunkLen, timeLimitHit) :: rest =>
      -- stream_bytes_received += len(chunk); total_bytes_received += len(chunk)
      let total' := total + chunkLen
      -- if elapsed >= max_duration_seconds: break
      if timeLimitHit then ([], total')
      -- if total_bytes_received > max_bytes: break (chunk not yielded)
      else if total' > maxBytes then ([], total')
      else
        let rec' := request_generator maxBytes total' rest
        (chunkLen :: rec'.1, rec'.2)

/-! ## The TTS data model (`tts_service.py`) -/

/-- `MAX_TEXT_LENGTH` constant of `tts_service.py`. -/
def MAX_TEXT_LENGTH : Nat := 4000

/-- One speech mark `{"timeSeconds": ..., "value": ...}`. -/
structure SpeechMark where
  timeSeconds : ℚ
  value : String
  deriving DecidableEq

/-- `audio_content` is a Python `str` (base64, possibly empty) or, with
`return_raw_audio=True`, the raw provider bytes. -/
inductive AudioContent where
  | b64 (s : String)
  | raw (bytes : List Nat)
  deriving DecidableEq

/-- `TTSResult` named tuple of `tts_service.py` (field for field). -/
structure TTSResult where
  audio_content : AudioContent
  speech_marks : List SpeechMark
  timepoints_available : Bool
  error : Option String := none
  was_chunked : Bool := false
  deriving DecidableEq

/-! ## `_chunk_text` (tts_service.py lines 186-229)

`re.split(r'([.!?]+\s+)', text)` is embedded as a single character-wise pass
(`splitSentencesAux`): a maximal run of sentence punctuation followed by a
maximal run of whitespace is a captured delimiter; a punctuation run not
followed by whitespace stays inside its segment. -/

/-- The sentence-ending punctuation class `[.!?]`. -/
def isSentencePunct (c : Char) : Bool :=
  c == '.' || c == '!' || c == '?'

/-- Python's `\s` (ASCII range) and the characters stripped by `str.strip()`. -/
def isPySpace (c : Char) : Bool :=
  c == ' ' || c == '\t' || c == '\n' || c == '\r' || c == '\x0b' || c == '\x0c'

/-- One pass over the text reproducing `re.split(r'([.!?]+\s+)', text)`.
`segRev` holds the current segment (reversed), `punctRev` a pending
punctuation run, `spaceRev` the whitespace run that confirms the pending
punctuation as a delimiter. -/
def splitSentencesAux :
    List Char → List Char → List Char → List Char → List (List Char)
  | [], segRev, punctRev, spaceRev =>
      if spaceRev.isEmpty then
        -- trailing punctuation without whitespace stays in the segment
        [segRev.reverse ++ punctRev.reverse]
      else
        -- the delimiter reaches the end of the text: trailing empty segment
        [segRev.reverse, punctRev.reverse ++ spaceRev.reverse, []]
  | c :: rest, segRev, punctRev, spaceRev =>
      if spaceRev.isEmpty then
        if punctRev.isEmpty then
          if isSentencePunct c then splitSentencesAux rest segRev [c] []
          else splitSentencesAux rest (c :: segRev) [] []
        else
          if isSentencePunct c then splitSentencesAux rest segRev (c :: punctRev) []
          else if isPySpace c then splitSentencesAux rest segRev punctRev [c]
          else
            -- punctuation run not followed by whitespace: part of the segment
            splitSentencesAux rest (c :: (punctRev ++ segRev)) [] []
      else
        if isPySpace c then splitSentencesAux rest segRev punctRev (c :: spaceRev)
        else
          -- delimiter complete: emit segment and delimiter, restart at c
          segRev.reverse :: (punctRev.reverse ++ spaceRev.reverse) ::
            (if isSentencePunct c then splitSentencesAux rest [] [c] []
             else splitSentencesAux rest [c] [] [])

/-- `re.split(r'([.!?]+\s+)', text)`: alternating segments and captured
delimiters. -/
def splitSentences (text : List Char) : List (List Char) :=
  splitSentencesAux text [] [] []

/-- The loop header `for i in range(0, len(sentences), 2)` with
`sentence = sentences[i]` and `punct = sentences[i+1] if i+1 < len else ""`:
pair each segment with the delimiter that follows it. -/
def pairSentences : List (List Char) → List (List Char × List Char)
  | [] => []
  | [s] => [(s, [])]
  | s :: p :: rest => (s, p) :: pairSentences rest

/-- Python `str.strip()`. -/
def pyStrip (l : List Char) : List Char :=
  ((l.dropWhile isPySpace).reverse.dropWhile isPySpace).reverse

/-- The hard split `for j in range(0, len(sentence), MAX_TEXT_LENGTH)`;
the fuel argument (instantiated with the list length) only drives the
recursion, one slice of `MAX_TEXT_LENGTH` characters per step. -/
def hardSplitAux : Nat → List Char → List (List Char)
  | 0, _ => []
  | _, [] => []
  | fuel + 1, s => s.take MAX_TEXT_LENGTH :: hardSplitAux fuel (s.drop MAX_TEXT_LENGTH)

/-- `sentence[j:j+MAX_TEXT_LENGTH]` slices of an over-long sentence. -/
def hardSplit (s : List Char) : List (List Char) :=
  hardSplitAux s.length s

/-- The accumulation loop of `_chunk_text`: `current` is `current_chunk`,
`chunks` the accumulated output (in order). -/
def chunkLoop : List (List Char × List Char) → List Char → List (List Char) →
    List (List Char)
  | [], current, chunks =>
      if current.isEmpty then chunks else chunks ++ [pyStrip current]
  | (sentence, punct) :: rest, current, chunks =>
      if current.length + sentence.length + punct.length > MAX_TEXT_LENGTH then
        let chunks' := if current.isEmpty then chunks else chunks ++ [pyStrip current]
        if sentence.length > MAX_TEXT_LENGTH then
          chunkLoop rest [] (chunks' ++ hardSplit sentence)
        else
          chunkLoop rest (sentence ++ punct) chunks'
      else
        chunkLoop rest (current ++ sentence ++ punct) chunks

/-- `_chunk_text` of `tts_service.py`. -/
def chunk_text (text : List Char) : List (List Char) :=
  if text.length ≤ MAX_TEXT_LENGTH then [text]
  else chunkLoop (pairSentences (splitSentences text)) [] []

/-! ## `_generate_single_chunk` (tts_service.py lines 639-732)

The provider call `client.synthesize_speech` either returns a response
(timepoints plus audio bytes) or raises; both outcomes are modelled by
`ProviderOutcome`.  Everything inside the `try` block that only shapes the
request (SSML conversion, voice params, encoding map) does not affect the
returned `TTSResult` beyond the provider outcome, and the surrounding
`except Exception` turns any raise into an error result. -/

/-- Outcome of one `synthesize_speech` provider call: a response with its
`timepoints` (already in `{timeSeconds, value}` shape) and audio bytes, or a
raised exception with its message. -/
inductive ProviderOutcome where
  | success (timepoints : List SpeechMark) (audio : List Nat)
  | failure (msg : String)
  deriving DecidableEq

/-- The base64 alphabet used by Python's `base64.b64encode`. -/
def base64Alphabet : List Char :=
  [ 'A', 'B', 'C', 'D', 'E', 'F', 'G', 'H', 'I', 'J', 'K', 'L', 'M',
    'N', 'O', 'P', 'Q', 'R', 'S', 'T', 'U', 'V', 'W', 'X', 'Y', 'Z',
    'a', 'b', 'c', 'd', 'e', 'f', 'g', 'h', 'i', 'j', 'k', 'l', 'm',
    'n', 'o', 'p', 'q', 'r', 's', 't', 'u', 'v', 'w', 'x', 'y', 'z',
    '0', '1', '2', '3', '4', '5', '6', '7', '8', '9', '+', '/' ]

/-- One 6-bit group as a base64 character. -/
def base64Digit (i : Nat) : Char := base64Alphabet.getD i 'A'

/-- Standard base64 of a byte list, three bytes at a time with `=` padding
(the encoding performed by `base64.b64encode(...).decode("utf-8")`). -/
def base64EncodeGroups : List Nat → List Char
  | [] => []
  | [b1] => [base64Digit (b1 / 4), base64Digit (b1 % 4 * 16), '=', '=']
  | [b1, b2] =>
      [base64Digit (b1 / 4), base64Digit (b1 % 4 * 16 + b2 / 16),
       base64Digit (b2 % 16 * 4), '=']
  | b1 :: b2 :: b3 :: rest =>
      base64Digit (b1 / 4) :: base64Digit (b1 % 4 * 16 + b2 / 16) ::
      base64Digit (b2 % 16 * 4 + b3 / 64) :: base64Digit (b3 % 64) ::
      base64EncodeGroups rest

/-- `base64.b64encode(bytes).decode("utf-8")`. -/
def base64Encode (bytes : List Nat) : String :=
  String.mk (base64EncodeGroups bytes)

/-- `_generate_single_chunk`: the result only depends on the provider
outcome and on `return_raw_audio` (the text, language, voice and granularity
arguments shape the request that the oracle answers). -/
def generate_single_chunk (outcome : ProviderOutcome) (return_raw_audio : Bool) :
    TTSResult :=
  match outcome with
  | .failure msg =>
      { audio_content := .b64 ""
        speech_marks := []
        timepoints_available := false
        error := some ("Error generating TTS audio: " ++ msg)
        was_chunked := false }
  | .success timepoints audio =>
      -- if response.timepoints: available, marks mapped; else unavailable, []
      let timepoints_available := !timepoints.isEmpty
      let speech_marks := if timepoints.isEmpty then [] else timepoints
      let audio_content :=
        if return_raw_audio then AudioContent.raw audio
        else AudioContent.b64 (base64Encode audio)
      { audio_content := audio_content
        speech_marks := speech_marks
        timepoints_available := timepoints_available
        error := none
        was_chunked := false }

/-! ## `_merge_chunked_results` (tts_service.py lines 503-554) -/

/-- The running-offset loop over `chunk_results`: each chunk's marks are
shifted by `time_offset`; after a chunk with marks, `time_offset` becomes
the last merged timestamp plus the fixed 0.5 s inter-chunk gap. -/
def mergeMarksLoop : List TTSResult → ℚ → List SpeechMark
  | [], _ => []
  | r :: rest, time_offset =>
      let shifted := r.speech_marks.map
        (fun m => { timeSeconds := m.timeSeconds + time_offset, value := m.value })
      let nextOffset :=
        if r.speech_marks.isEmpty then time_offset
        else (shifted.getLastD { timeSeconds := 0, value := "" }).timeSeconds + 1/2
      shifted ++ mergeMarksLoop rest nextOffset

/-- The `time_offset` value after the loop has consumed a list of chunks,
starting from `time_offset = off` (used to address a chunk's position inside
the merge). -/
def offsetAfter : List TTSResult → ℚ → ℚ
  | [], off => off
  | r :: rest, off =>
      offsetAfter rest
        (if r.speech_marks.isEmpty then off
         else ((r.speech_marks.map
            (fun m => ({ timeSeconds := m.timeSeconds + off, value := m.value }
              : SpeechMark))).getLastD { timeSeconds := 0, value := "" }).timeSeconds + 1/2)

/-- Python `sep.join(strings)`. -/
def pyJoin (sep : String) : List String → String
  | [] => ""
  | [s] => s
  | s :: rest => s ++ sep ++ pyJoin sep rest

/-- `_merge_chunked_results`. -/
def merge_chunked_results (chunk_results : List TTSResult) : TTSResult :=
  match chunk_results with
  | [] =>
      { audio_content := .b64 ""
        speech_marks := []
        timepoints_available := false
        error := some "No chunks to merge"
        was_chunked := true }
  | first :: _ =>
      let errors := chunk_results.filterMap (fun r =>
        match r.error with
        | some e => if e = "" then none else some e  -- Python truthiness of str
        | none => none)
      { audio_content := first.audio_content
        speech_marks := mergeMarksLoop chunk_results 0
        timepoints_available := chunk_results.all (·.timepoints_available)
        error := if errors.isEmpty then none else some (pyJoin "; " errors)
        was_chunked := true }

/-! ## Voice selection and `generate_speech` (tts_service.py lines 374-400, 556-637)

`voice_map` is a Python dict; its iteration order is insertion order, so it
is modelled as an association list.  Language detection (`detect_language`)
always returns a code (every failure path falls back to `"en-US"`), so the
detected code is an oracle parameter. -/

/-- `_select_voice_for_language`. -/
def select_voice_for_language (voice_map : List (String × List String))
    (language_code : String) : Option String :=
  let voices := ((voice_map.find? (fun p => p.1 = language_code)).map Prod.snd).getD []
  let voices :=
    if voices.isEmpty then
      -- base_lang = language_code.split('-')[0]; first key starting with it
      let base_lang := String.mk (language_code.toList.takeWhile (· ≠ '-'))
      match voice_map.find? (fun p => p.1.startsWith base_lang) with
      | some p => p.2
      | none => voices
    else voices
  match voices with
  | [] => none
  | v :: _ => some v

/-- `if not voice_name:` — Python falsiness of `None` and `""`. -/
def voiceNameMissing : Option String → Bool
  | none => true
  | some v => v == ""

/-- The voice `generate_speech` ends up with: auto language detection is
applied first, then dynamic selection when no (truthy) voice name was
passed (lines 601-613). -/
def resolvedVoice (voice_map : List (String × List String))
    (detected language_code : String) (voice_name : Option String) : Option String :=
  let language_code := if language_code = "auto" then detected else language_code
  if voiceNameMissing voice_name then
    select_voice_for_language voice_map language_code
  else voice_name

/-- `generate_speech`.  Oracle parameters: `available` models
`self.is_available and self.client`; `detected` the result of
`detect_language` (only consulted for `language_code == "auto"`);
`outcomes i` the provider outcome of the `i`-th chunk call.
`voice_gender` is accepted and ignored, as in the source (the voice request
is built from `language_code` and the resolved `voice_name` only). -/
def generate_speech (available : Bool) (voice_map : List (String × List String))
    (detected : String) (outcomes : Nat → ProviderOutcome)
    (text : List Char) (language_code : String)
    (_voice_gender : Option String) (voice_name : Option String)
    (return_raw_audio : Bool) : TTSResult :=
  if !available then
    { audio_content := .b64 ""
      speech_marks := []
      timepoints_available := false
      error := some "TTS service not available"
      was_chunked := false }
  else
    match resolvedVoice voice_map detected language_code voice_name with
    | none =>
        { audio_content := .b64 ""
          speech_marks := []
          timepoints_available := false
          error := some ("No suitable voice found for language '"
            ++ (if language_code = "auto" then detected else language_code) ++ "'")
          was_chunked := false }
    | some _voice =>
        let chunks := chunk_text text
        if chunks.length > 1 then
          merge_chunked_results ((List.range chunks.length).map
            (fun i => generate_single_chunk (outcomes i) return_raw_audio))
        else
          -- single chunk: the source passes the original `text` to the
          -- provider here, not `chunks[0]`
          generate_single_chunk (outcomes 0) return_raw_audio

/-! ## The streaming coordinator `transcribe_stream` (stt_service.py lines 166-387)

One iteration of the `while True` loop (one *generation*) interacts with the
environment through: the recognizer responses it reads back (each a list of
results), the wall clock, and the way the connection ends.  A generation is
therefore scripted by `GenScript`: the results that arrive, each paired with
the clock reading `elapsed >= max_duration_seconds - 10` made right after
the corresponding event is yielded (`some remaining` when the limit is near,
`none` otherwise), and a `GenEnding` describing how the response stream
ended, carrying the boolean clock/byte readings the code makes there. -/

/-- How one generation's response stream ended.

* `normalEnd timeLimitReached`: the `async for` loop finished on its own;
  `timeLimitReached` is the reading of `elapsed >= max_duration_seconds`
  taken after the loop (lines 316-327).
* `stopIter timeLimitReached`: `StopAsyncIteration` was raised
  (lines 329-336).
* `exn isNormalCompletion withinLimit bytesPositive`: another exception was
  raised; `isNormalCompletion` is the message/byte-count classification of
  lines 343-348, `withinLimit` the reading of `elapsed < max_duration_seconds`,
  `bytesPositive` whether `stream_bytes_received > 0` (lines 350-387). -/
inductive GenEnding where
  | normalEnd (timeLimitReached : Bool)
  | stopIter (timeLimitReached : Bool)
  | exn (isNormalCompletion : Bool) (withinLimit : Bool) (bytesPositive : Bool)
  deriving DecidableEq

/-- Script for one generation: the recognizer results that arrive (grouped
into responses), each with the near-limit clock reading made after its
event is yielded, plus how the stream ended. -/
structure GenScript where
  responses : List (List (RecResult × Option Nat))
  ending : GenEnding
  deriving DecidableEq

/-- The reconnect notice yielded at the top of every generation after the
first (lines 222-230). -/
def reconnectNotice (stream_count : Nat) : TranscriptionResult :=
  { is_final := false, transcript := "", confidence := none, words := [],
    stream_number := stream_count,
    warning := some "Stream reconnected due to time limit" }

/-- The near-limit notice yielded 10 s before the per-connection limit
(lines 302-311). -/
def timeLimitNotice (stream_count remaining : Nat) : TranscriptionResult :=
  { is_final := false, transcript := "", confidence := none, words := [],
    stream_number := stream_count,
    warning := some ("Streaming will reconnect in " ++ toString remaining ++ " seconds") }

/-- The event yielded after an unexpected stream fault within the time
limit (lines 373-381). -/
def streamErrorNotice (stream_count : Nat) : TranscriptionResult :=
  { is_final := false, transcript := "", confidence := none, words := [],
    stream_number := stream_count,
    error := some "Stream error occurred, attempting to reconnect...",
    warning := some "reconnecting" }

/-- The event yielded when the service is unavailable (lines 197-206);
note `stream_number=0`. -/
def unavailableNotice : TranscriptionResult :=
  { is_final := false, transcript := "", confidence := none, words := [],
    stream_number := 0, error := some "STT service not available" }

/-- The inner `for result in response.results` loop (lines 274-314):
results with an empty alternatives list are skipped with no event and no
clock check; otherwise an event is yielded (word timings only on final
results) and, if the near-limit check fires, a warning is yielded and the
inner loop breaks (the outer response loop continues). -/
def processResponse (stream_count : Nat) :
    List (RecResult × Option Nat) → List TranscriptionResult
  | [] => []
  | (r, nearLimit) :: rest =>
      match r.alternatives with
      | [] => processResponse stream_count rest
      | alt :: _ =>
          let ev : TranscriptionResult :=
            { is_final := r.is_final
              transcript := alt.transcript
              confidence := alt.confidence
              words := if r.is_final then alt.words.map parse_word_timestamps else []
              stream_number := stream_count }
          match nearLimit with
          | some remaining => [ev, timeLimitNotice stream_count remaining]
          | none => ev :: processResponse stream_count rest

/-- The `async for response in stream` loop (empty responses are skipped). -/
def processResponses (stream_count : Nat)
    (responses : List (List (RecResult × Option Nat))) : List TranscriptionResult :=
  responses.flatMap (processResponse stream_count)

/-- Whether the generation's ending makes the `while True` loop run another
generation (`continue`) or leave (`break`/fall-through). -/
def genContinues (g : GenScript) : Bool :=
  match g.ending with
  | .normalEnd timeLimitReached => timeLimitReached
  | .stopIter timeLimitReached => timeLimitReached
  | .exn isNormalCompletion withinLimit _ =>
      if isNormalCompletion then !withinLimit else true

/-- Events yielded while classifying the generation's ending: only the
unexpected-fault path (not a normal completion, still within the limit)
yields one (lines 373-381). -/
def genEndingEvents (stream_count : Nat) (g : GenScript) : List TranscriptionResult :=
  match g.ending with
  | .exn isNormalCompletion withinLimit _ =>
      if !isNormalCompletion && withinLimit then [streamErrorNotice stream_count] else []
  | _ => []

/-- All events of one generation, in yield order. -/
def runGeneration (stream_count : Nat) (g : GenScript) : List TranscriptionResult :=
  (if stream_count > 1 then [reconnectNotice stream_count] else [])
    ++ processResponses stream_count g.responses
    ++ genEndingEvents stream_count g

/-- How a run of the session loop ended, relative to the finite environment
script: `completed` when the loop `break`s (the generator returns),
`stillRunning` when the loop would start yet another generation beyond the
scripted ones. -/
inductive SessionEnd where
  | completed
  | stillRunning
  deriving DecidableEq

/-- The `while True` loop of `transcribe_stream`: `stream_count` holds the
generation number of the iteration about to run (the Python counter is
incremented at the top of each iteration; here the increment is the `+1`
passed to the recursive call). -/
def runSession (stream_count : Nat) : List GenScript → List TranscriptionResult × SessionEnd
  | [] => ([], .stillRunning)
  | g :: rest =>
      let evs := runGeneration stream_count g
      if genContinues g then
        let tail := runSession (stream_count + 1) rest
        (evs ++ tail.1, tail.2)
      else
        (evs, .completed)

/-- Number of generations the loop starts while consuming the script. -/
def generationsStarted : List GenScript → Nat
  | [] => 0
  | g :: rest => 1 + (if genContinues g then generationsStarted rest else 0)

/-- `transcribe_stream` (event trace): when the service is unavailable a
single error event with `stream_number=0` is yielded and the generator
returns; otherwise the generation loop runs, starting at generation 1. -/
def transcribe_stream (available : Bool) (gens : List GenScript) :
    List TranscriptionResult × SessionEnd :=
  if available then runSession 1 gens
  else ([unavailableNotice], .completed)

/-! ## The websocket dispatcher (interviews.py lines 468-522)

The `async for result in stt.transcribe_stream(...)` body, one result at a
time: what is sent over the websocket for this result, and whether the loop
keeps consuming further results.  Python truthiness of the `error`,
`warning` and `transcript` string fields is modelled explicitly. -/

/-- A JSON message sent to the websocket client. -/
inductive OutMsg where
  | errorMsg (kind message : String) (reconnect : Option Bool)
  | warningMsg (kind message : String)
  | transcriptMsg (is_final : Bool) (transcript : String) (confidence : Option ℚ)
      (words : List WordTiming) (stream_number : Nat)
  deriving DecidableEq

/-- The transcript payload of a message, when it is a transcript message. -/
def OutMsg.transcriptPayload : OutMsg → Option String
  | .transcriptMsg _ t _ _ _ => some t
  | _ => none

/-- Python truthiness of an optional string (`None` and `""` are falsy). -/
def pyTruthy : Option String → Bool
  | none => false
  | some s => !(s == "")

/-- Whether `needle` occurs as a contiguous substring of `hay`
(Python's `needle in hay`). -/
def startsWithList : List Char → List Char → Bool
  | [], _ => true
  | _ :: _, [] => false
  | a :: as, b :: bs => a == b && startsWithList as bs

/-- Substring occurrence, scanning every start position. -/
def containsList (needle : List Char) : List Char → Bool
  | [] => needle.isEmpty
  | c :: rest => startsWithList needle (c :: rest) || containsList needle rest

/-- ASCII lower-casing of one character (Python `str.lower` on the ASCII
range of the error messages involved). -/
def pyLowerChar (c : Char) : Char :=
  if 'A' ≤ c ∧ c ≤ 'Z' then Char.ofNat (c.toNat + 32) else c

/-- `"audio timeout" in e.lower() or "timeout" in e.lower()` (line 472). -/
def errorIsTimeout (e : String) : Bool :=
  containsList "audio timeout".toList (e.toList.map pyLowerChar)
    || containsList "timeout".toList (e.toList.map pyLowerChar)

/-- Dispatch of one `TranscriptionResult` by `websocket_transcribe`:
the messages sent for it, and whether the consuming loop goes on
(`false` = `break`). -/
def dispatchResult (r : TranscriptionResult) : List OutMsg × Bool :=
  if pyTruthy r.error then
    let e := r.error.getD ""
    if errorIsTimeout e then
      -- normal completion when the audio ends: nothing sent, loop breaks
      ([], false)
    else if e = "STT service not available" then
      ([.errorMsg "Service unavailable" e none], false)
    else
      let reconnecting := r.warning == some "reconnecting"
      ([.errorMsg (if reconnecting then "stream_error" else "transcription_error")
          e (some reconnecting)],
       reconnecting)
  else if pyTruthy r.warning then
    let w := r.warning.getD ""
    (if w = "Stream reconnected due to time limit" then
        [.warningMsg "stream_reconnect" w]
      else if w.startsWith "Streaming will reconnect" then
        [.warningMsg "time_limit_approaching" w]
      else [],
     true)
  else
    (if r.transcript = "" then []
      else [.transcriptMsg r.is_final r.transcript r.confidence r.words r.stream_number],
     true)

/-- Reconnect notices in an event trace (the events marking a reconnection
boundary). -/
def isReconnectEvent (e : TranscriptionResult) : Bool :=
  e.warning == some "Stream reconnected due to time limit"

/-! ## Theorems -/

/-- Strengthened invariant for `request_generator`: either nothing was
forwarded, or the final counter value bounds the forwarded bytes plus the
carried-in counter. -/
theorem request_generator_sum_aux (maxBytes : Nat) :
    ∀ (input : List (Nat × Bool)) (total : Nat),
      (request_generator maxBytes total input).1.sum + total ≤ maxBytes ∨
      (request_generator maxBytes total input).1 = [] := by
  intro input
  induction input with
  | nil => intro total; right; rfl
  | cons head rest ih =>
      intro total
      obtain ⟨chunkLen, timeLimitHit⟩ := head
      cases timeLimitHit with
      | true => right; simp [request_generator]
      | false =>
          by_cases hb : total + chunkLen > maxBytes
          · right; simp [request_generator, hb]
          · have hle : total + chunkLen ≤ maxBytes := Nat.le_of_not_lt hb
            rcases ih (total + chunkLen) with h | h
            · left
              simp only [request_generator, Bool.false_eq_true, if_false, if_neg hb,
                List.sum_cons]
              omega
            · left
              simp only [request_generator, Bool.false_eq_true, if_false, if_neg hb,
                h, List.sum_cons, List.sum_nil]
              omega

/-- C1: for every transcription session and every recognizer connection
(generation), the sum of the byte lengths of the audio chunks actually
forwarded into the connection by `request_generator` never exceeds the
session-wide byte budget `maxBytes` — regardless of the counter value
`total` carried in from earlier generations, of the chunk sizes, and of
where the per-generation time limit strikes.  The generator counts each
chunk into the session-wide counter before the budget check and breaks
without yielding the chunk that would cross the budget. -/
theorem stt_forwarded_bytes_within_budget (maxBytes total : Nat)
    (input : List (Nat × Bool)) :
    (request_generator maxBytes total input).1.sum ≤ maxBytes := by
  rcases request_generator_sum_aux maxBytes input total with h | h
  · omega
  · simp [h]

/-- Every event emitted by the inner results loop is tagged with the
current generation number. -/
theorem processResponse_stream_number (sc : Nat) :
    ∀ (resp : List (RecResult × Option Nat)) (e : TranscriptionResult),
      e ∈ processResponse sc resp → e.stream_number = sc := by
  intro resp
  induction resp with
  | nil => simp [processResponse]
  | cons head rest ih =>
      obtain ⟨⟨fin, alts⟩, near⟩ := head
      intro e he
      cases alts with
      | nil => exact ih e (by simpa [processResponse] using he)
      | cons alt alts =>
          cases near with
          | none =>
              rw [processResponse] at he
              rcases List.mem_cons.mp he with he | he
              · simp [he]
              · exact ih e he
          | some rem =>
              rw [processResponse] at he
              rcases List.mem_cons.mp he with he | he
              · simp [he]
              · rcases List.mem_singleton.mp he with rfl
                simp [timeLimitNotice]

/-- Every event of one generation is tagged with that generation's number. -/
theorem runGeneration_stream_number (sc : Nat) (g : GenScript)
    (e : TranscriptionResult) (he : e ∈ runGeneration sc g) :
    e.stream_number = sc := by
  simp only [runGeneration, List.mem_append] at he
  rcases he with (he | he) | he
  · rcases (by split at he <;> simp_all : e = reconnectNotice sc) with rfl
    rfl
  · simp only [processResponses, List.mem_flatMap] at he
    obtain ⟨resp, -, he⟩ := he
    exact processResponse_stream_number sc resp e he
  · obtain ⟨resps, ending⟩ := g
    cases ending with
    | normalEnd tl => simp [genEndingEvents] at he
    | stopIter tl => simp [genEndingEvents] at he
    | exn isN inL bp =>
        simp only [genEndingEvents] at he
        split at he
        · rcases List.mem_singleton.mp he with rfl
          simp [streamErrorNotice]
        · simp at he

/-- Stream numbers in a session trace are bounded below by the starting
generation number and above by the last generation actually started. -/
theorem runSession_stream_number_bounds :
    ∀ (gens : List GenScript) (sc : Nat) (e : TranscriptionResult),
      e ∈ (runSession sc gens).1 →
      sc ≤ e.stream_number ∧ e.stream_number < sc + generationsStarted gens := by
  intro gens
  induction gens with
  | nil => simp [runSession]
  | cons g rest ih =>
      intro sc e he
      simp only [runSession] at he
      by_cases hc : genContinues g
      · simp only [hc, if_true, List.mem_append] at he
        rcases he with he | he
        · have := runGeneration_stream_number sc g e he
          simp [this, generationsStarted, hc]
        · have := ih (sc + 1) e he
          simp only [generationsStarted, hc, if_true]
          omega
      · simp only [hc, if_false, Bool.false_eq_true] at he
        have := runGeneration_stream_number sc g e he
        simp [this, generationsStarted]

/-- A list of naturals all equal to a constant is pairwise non-decreasing. -/
theorem pairwise_le_of_all_eq {l : List Nat} {c : Nat} (h : ∀ x ∈ l, x = c) :
    l.Pairwise (· ≤ ·) := by
  induction l with
  | nil => exact List.Pairwise.nil
  | cons a l ih =>
      refine List.Pairwise.cons ?_ (ih fun x hx => h x (List.mem_cons_of_mem a hx))
      intro b hb
      rw [h a (List.mem_cons_self a l), h b (List.mem_cons_of_mem a hb)]

/-- Stream numbers never decrease along a session trace. -/
theorem runSession_stream_number_pairwise :
    ∀ (gens : List GenScript) (sc : Nat),
      ((runSession sc gens).1.map (·.stream_number)).Pairwise (· ≤ ·) := by
  intro gens
  induction gens with
  | nil => simp [runSession]
  | cons g rest ih =>
      intro sc
      simp only [runSession]
      by_cases hc : genContinues g
      · simp only [hc, if_true, List.map_append]
        rw [List.pairwise_append]
        refine ⟨?_, ih (sc + 1), ?_⟩
        · exact pairwise_le_of_all_eq (by
            intro x hx
            obtain ⟨e, he, rfl⟩ := List.mem_map.mp hx
            exact runGeneration_stream_number sc g e he)
        · intro a ha b hb
          obtain ⟨e, he, rfl⟩ := List.mem_map.mp ha
          obtain ⟨e', he', rfl⟩ := List.mem_map.mp hb
          rw [runGeneration_stream_number sc g e he]
          have := (runSession_stream_number_bounds rest (sc + 1) e' he').1
          omega
      · simp only [hc, if_false, Bool.false_eq_true]
        exact pairwise_le_of_all_eq (by
          intro x hx
          obtain ⟨e, he, rfl⟩ := List.mem_map.mp hx
          exact runGeneration_stream_number sc g e he)

/-- The near-limit warning text can never equal the reconnect notice text,
whatever the remaining-seconds fragment is (they already differ at the
seventh character). -/
theorem streaming_msg_ne_reconnect_msg (s : String) :
    ("Streaming will reconnect in " ++ s ++ " seconds")
      ≠ "Stream reconnected due to time limit" := by
  intro h
  have hd := congrArg String.data h
  rw [String.data_append, String.data_append] at hd
  have h1 : ("Streaming will reconnect in ").data
      = 'S' :: 't' :: 'r' :: 'e' :: 'a' :: 'm' :: 'i' :: ("ng will reconnect in ").data := by
    decide
  have h2 : ("Stream reconnected due to time limit").data
      = 'S' :: 't' :: 'r' :: 'e' :: 'a' :: 'm' :: ' ' :: ("reconnected due to time limit").data := by
    decide
  rw [h1, h2] at hd
  simp at hd

/-- A near-limit notice is not a reconnect notice. -/
theorem timeLimitNotice_not_reconnect (sc rem : Nat) :
    isReconnectEvent (timeLimitNotice sc rem) = false := by
  have : (timeLimitNotice sc rem).warning
      = some ("Streaming will reconnect in " ++ toString rem ++ " seconds") := rfl
  simp [isReconnectEvent, this, streaming_msg_ne_reconnect_msg (toString rem)]

/-- The inner results loop emits no reconnect notices. -/
theorem processResponse_no_reconnect (sc : Nat) :
    ∀ (resp : List (RecResult × Option Nat)),
      (processResponse sc resp).filter isReconnectEvent = [] := by
  intro resp
  induction resp with
  | nil => simp [processResponse]
  | cons head rest ih =>
      obtain ⟨⟨fin, alts⟩, near⟩ := head
      cases alts with
      | nil => simpa [processResponse] using ih
      | cons alt alts =>
          cases near with
          | none =>
              rw [processResponse, List.filter_cons]
              have : isReconnectEvent
                  { is_final := fin, transcript := alt.transcript,
                    confidence := alt.confidence,
                    words := if fin then alt.words.map parse_word_timestamps else [],
                    stream_number := sc } = false := by
                simp [isReconnectEvent]
              simp only [this, Bool.false_eq_true, if_false, ih]
          | some rem =>
              rw [processResponse]
              have h1 : isReconnectEvent
                  { is_final := fin, transcript := alt.transcript,
                    confidence := alt.confidence,
                    words := if fin then alt.words.map parse_word_timestamps else [],
                    stream_number := sc } = false := by
                simp [isReconnectEvent]
              simp [List.filter_cons, h1, timeLimitNotice_not_reconnect]

/-- The ending-classification path emits no reconnect notices. -/
theorem genEndingEvents_no_reconnect (sc : Nat) (g : GenScript) :
    (genEndingEvents sc g).filter isReconnectEvent = [] := by
  obtain ⟨resps, ending⟩ := g
  cases ending with
  | normalEnd tl => rfl
  | stopIter tl => rfl
  | exn isN inL bp =>
      simp only [genEndingEvents]
      split
      · simp [streamErrorNotice, isReconnectEvent]
      · rfl

/-- The response loop emits no reconnect notices. -/
theorem processResponses_no_reconnect (sc : Nat)
    (resps : List (List (RecResult × Option Nat))) :
    (processResponses sc resps).filter isReconnectEvent = [] := by
  induction resps with
  | nil => rfl
  | cons resp rest ih =>
      simp only [processResponses, List.flatMap_cons, List.filter_append] at *
      rw [processResponse_no_reconnect sc resp, ih]
      rfl

/-- The first generation emits no reconnect notice. -/
theorem runGeneration_one_no_reconnect (g : GenScript) :
    (runGeneration 1 g).filter isReconnectEvent = [] := by
  simp only [runGeneration, List.filter_append]
  rw [processResponses_no_reconnect, genEndingEvents_no_reconnect]
  simp

/-- A later generation's reconnect notices are exactly the one yielded at
its top. -/
theorem runGeneration_reconnect_of_ge2 (sc : Nat) (hsc : 2 ≤ sc) (g : GenScript) :
    (runGeneration sc g).filter isReconnectEvent = [reconnectNotice sc] := by
  simp only [runGeneration, List.filter_append]
  rw [processResponses_no_reconnect, genEndingEvents_no_reconnect]
  have h1 : sc > 1 := hsc
  simp only [h1, if_true, List.filter_cons]
  have : isReconnectEvent (reconnectNotice sc) = true := by
    simp [isReconnectEvent, reconnectNotice]
  simp [this]

/-- From generation `sc ≥ 2` on, the reconnect notices of a session trace
are tagged `sc, sc+1, ...`, one per generation started. -/
theorem runSession_reconnect_tags :
    ∀ (gens : List GenScript) (sc : Nat), 2 ≤ sc →
      (((runSession sc gens).1.filter isReconnectEvent).map (·.stream_number))
        = List.range' sc (generationsStarted gens) := by
  intro gens
  induction gens with
  | nil => intro sc _; simp [runSession, generationsStarted]
  | cons g rest ih =>
      intro sc hsc
      simp only [runSession]
      by_cases hc : genContinues g
      · simp only [hc, if_true, List.filter_append, List.map_append]
        rw [runGeneration_reconnect_of_ge2 sc hsc g, ih (sc + 1) (by omega)]
        simp only [generationsStarted, hc, if_true, List.map_cons, List.map_nil]
        rw [Nat.add_comm 1 (generationsStarted rest), List.range'_succ]
        rfl
      · simp only [hc, if_false, Bool.false_eq_true]
        rw [runGeneration_reconnect_of_ge2 sc hsc g]
        simp [generationsStarted, hc, List.range'_succ, reconnectNotice]

/-- C8: in every transcription session (service available, so the generation
loop actually runs), the `stream_number` tag starts at 1 — every emitted
event is tagged between 1 and the number of generations started, the first
generation being number 1 — never decreases across the event sequence, and
increases by exactly one at each reconnection: the reconnect notices are
tagged exactly `2, 3, ...`, one per new generation, hence strictly
increasing over the reconnect boundaries. -/
theorem stt_stream_generation_monotone (gens : List GenScript) :
    (∀ e ∈ (transcribe_stream true gens).1,
        1 ≤ e.stream_number ∧ e.stream_number ≤ generationsStarted gens) ∧
    ((transcribe_stream true gens).1.map (·.stream_number)).Pairwise (· ≤ ·) ∧
    ((transcribe_stream true gens).1.filter isReconnectEvent).map (·.stream_number)
      = List.range' 2 (generationsStarted gens - 1) := by
  have htr : (transcribe_stream true gens).1 = (runSession 1 gens).1 := by
    simp [transcribe_stream]
  refine ⟨?_, ?_, ?_⟩
  · intro e he
    rw [htr] at he
    have := runSession_stream_number_bounds gens 1 e he
    omega
  · rw [htr]
    exact runSession_stream_number_pairwise gens 1
  · rw [htr]
    cases gens with
    | nil => simp [runSession, generationsStarted]
    | cons g rest =>
        simp only [runSession]
        by_cases hc : genContinues g
        · simp only [hc, if_true, List.filter_append, List.map_append]
          rw [runGeneration_one_no_reconnect g, runSession_reconnect_tags rest 2 (by omega)]
          simp [generationsStarted, hc]
        · simp only [hc, if_false, Bool.false_eq_true]
          rw [runGeneration_one_no_reconnect g]
          simp [generationsStarted, hc]

/-- A generation ending classified as an unexpected fault while still within
the per-connection time limit (the `not is_normal_completion`,
`elapsed < max_duration_seconds` path of lines 367-383). -/
def isUnexpectedFaultWithinLimit (g : GenScript) : Bool :=
  match g.ending with
  | .exn isNormalCompletion withinLimit _ => !isNormalCompletion && withinLimit
  | _ => false

/-- The error event emitted on the unexpected-fault path. -/
def isFaultErrorEvent (e : TranscriptionResult) : Bool :=
  e.error == some "Stream error occurred, attempting to reconnect..."
    && e.warning == some "reconnecting"

/-- Events of the inner results loop carry no error. -/
theorem processResponse_error_none (sc : Nat) :
    ∀ (resp : List (RecResult × Option Nat)) (e : TranscriptionResult),
      e ∈ processResponse sc resp → e.error = none := by
  intro resp
  induction resp with
  | nil => simp [processResponse]
  | cons head rest ih =>
      obtain ⟨⟨fin, alts⟩, near⟩ := head
      intro e he
      cases alts with
      | nil => exact ih e (by simpa [processResponse] using he)
      | cons alt alts =>
          cases near with
          | none =>
              rw [processResponse] at he
              rcases List.mem_cons.mp he with he | he
              · simp [he]
              · exact ih e he
          | some rem =>
              rw [processResponse] at he
              rcases List.mem_cons.mp he with he | he
              · simp [he]
              · rcases List.mem_singleton.mp he with rfl
                simp [timeLimitNotice]

/-- In one generation's events, the fault-error events are exactly those of
the ending classification: one per unexpected within-limit fault, none
otherwise. -/
theorem runGeneration_fault_filter (sc : Nat) (g : GenScript) :
    (runGeneration sc g).filter isFaultErrorEvent
      = (if isUnexpectedFaultWithinLimit g then [streamErrorNotice sc] else []) := by
  simp only [runGeneration, List.filter_append]
  have h1 : (if sc > 1 then [reconnectNotice sc] else []).filter isFaultErrorEvent = [] := by
    split <;> simp [isFaultErrorEvent, reconnectNotice]
  have h2 : (processResponses sc g.responses).filter isFaultErrorEvent = [] := by
    rw [List.filter_eq_nil_iff]
    intro e he
    simp only [processResponses, List.mem_flatMap] at he
    obtain ⟨resp, -, he⟩ := he
    simp [isFaultErrorEvent, processResponse_error_none sc resp e he]
  have h3 : (genEndingEvents sc g).filter isFaultErrorEvent
      = (if isUnexpectedFaultWithinLimit g then [streamErrorNotice sc] else []) := by
    obtain ⟨resps, ending⟩ := g
    cases ending with
    | normalEnd tl => rfl
    | stopIter tl => rfl
    | exn isN inL bp =>
        simp only [genEndingEvents, isUnexpectedFaultWithinLimit]
        split
        · simp_all [streamErrorNotice, isFaultErrorEvent]
        · simp_all
  rw [h1, h2, h3]
  rfl

/-- An unexpected within-limit fault always makes the loop `continue`. -/
theorem unexpectedFault_continues (g : GenScript)
    (h : isUnexpectedFaultWithinLimit g = true) : genContinues g = true := by
  obtain ⟨resps, ending⟩ := g
  cases ending with
  | normalEnd tl => simp [isUnexpectedFaultWithinLimit] at h
  | stopIter tl => simp [isUnexpectedFaultWithinLimit] at h
  | exn isN inL bp =>
      simp only [isUnexpectedFaultWithinLimit, Bool.and_eq_true, Bool.not_eq_true'] at h
      simp [genContinues, h.1]

/-- C2 (amended): every unexpected fault raised within the time limit makes
the coordinator emit one error event with `warning="reconnecting"` and start
one new generation — and this repeats for every such fault, without bound:
when every scripted generation ends in an unexpected within-limit fault, the
loop starts one generation per fault, emits one fault-error event per fault,
and is still running after the script (no terminal failure state exists in
the loop). -/
theorem stt_fault_retry_unbounded :
    ∀ (gens : List GenScript),
      (∀ g ∈ gens, isUnexpectedFaultWithinLimit g = true) →
      generationsStarted gens = gens.length ∧
      (transcribe_stream true gens).2 = SessionEnd.stillRunning ∧
      ((transcribe_stream true gens).1.filter isFaultErrorEvent).length = gens.length := by
  have main : ∀ (gens : List GenScript) (sc : Nat),
      (∀ g ∈ gens, isUnexpectedFaultWithinLimit g = true) →
      generationsStarted gens = gens.length ∧
      (runSession sc gens).2 = SessionEnd.stillRunning ∧
      ((runSession sc gens).1.filter isFaultErrorEvent).length = gens.length := by
    intro gens
    induction gens with
    | nil => intro sc _; exact ⟨rfl, rfl, rfl⟩
    | cons g rest ih =>
        intro sc h
        have hg : isUnexpectedFaultWithinLimit g = true := h g (List.mem_cons_self g rest)
        have hc : genContinues g = true := unexpectedFault_continues g hg
        have hrest := ih (sc + 1) (fun g' hg' => h g' (List.mem_cons_of_mem g hg'))
        simp only [runSession, hc, if_true, List.filter_append, List.length_append,
          generationsStarted, List.length_cons]
        refine ⟨by omega, hrest.2.1, ?_⟩
        rw [runGeneration_fault_filter sc g, hg]
        simp only [if_true, List.length_cons, List.length_nil]
        omega
  intro gens h
  have := main gens 1 h
  simpa [transcribe_stream] using this

/-- Witness for `stt_fault_retry_unbounded` at a concrete two-fault script:
both hypothesis and conclusions instantiated and evaluated. -/
theorem stt_fault_retry_unbounded_witness :
    generationsStarted
        [⟨[], .exn false true false⟩, ⟨[], .exn false true false⟩] = 2 ∧
      (transcribe_stream true
        [⟨[], .exn false true false⟩, ⟨[], .exn false true false⟩]).2
          = SessionEnd.stillRunning ∧
      ((transcribe_stream true
        [⟨[], .exn false true false⟩, ⟨[], .exn false true false⟩]).1.filter
          isFaultErrorEvent).length = 2 :=
  stt_fault_retry_unbounded
    [⟨[], .exn false true false⟩, ⟨[], .exn false true false⟩] (by decide)

/-- C2 (counterexample to the claim as stated): three consecutive immediate
unexpected faults.  After the first fault's single retry (generation 2) also
faults immediately, the session does not end in any terminal state — a third
generation is started and the loop is still running after the script, so
"repeated unexpected faults are not retried" and "the session ends in a
terminal Failed state if the retry also fails immediately" are both false of
the code. -/
theorem stt_fault_retry_counterexample :
    generationsStarted
        [⟨[], .exn false true false⟩, ⟨[], .exn false true false⟩,
         ⟨[], .exn false true false⟩] = 3 ∧
      (transcribe_stream true
        [⟨[], .exn false true false⟩, ⟨[], .exn false true false⟩,
         ⟨[], .exn false true false⟩]).2 = SessionEnd.stillRunning := by
  decide

/-- C9 (amended): a recognizer result with an empty alternatives list
produces no event at all in the coordinator, and the websocket dispatcher
never sends a transcript message with an empty transcript — empty
transcripts are filtered at the dispatch layer (`if result.transcript:`),
not inside the coordinator. -/
theorem stt_no_empty_transcript_to_caller :
    (∀ (sc : Nat) (fin : Bool) (near : Option Nat)
        (rest : List (RecResult × Option Nat)),
        processResponse sc (({ is_final := fin, alternatives := [] }, near) :: rest)
          = processResponse sc rest) ∧
    (∀ (r : TranscriptionResult) (m : OutMsg), m ∈ (dispatchResult r).1 →
        m.transcriptPayload ≠ some "") := by
  constructor
  · intro sc fin near rest
    rfl
  · intro r m hm
    simp only [dispatchResult] at hm
    by_cases h1 : pyTruthy r.error
    · simp only [h1, if_true] at hm
      by_cases h2 : errorIsTimeout (r.error.getD "")
      · simp [h2] at hm
      · by_cases h3 : r.error.getD "" = "STT service not available"
        · rw [h3] at hm
          simp only [(by decide : errorIsTimeout "STT service not available" = false),
            Bool.false_eq_true, if_false, if_true, List.mem_singleton] at hm
          simp [hm, OutMsg.transcriptPayload]
        · simp only [h2, h3, Bool.false_eq_true, if_false,
            List.mem_singleton] at hm
          simp [hm, OutMsg.transcriptPayload]
    · simp only [h1, Bool.false_eq_true, if_false] at hm
      by_cases h4 : pyTruthy r.warning
      · simp only [h4, if_true] at hm
        by_cases h5 : r.warning.getD "" = "Stream reconnected due to time limit"
        · simp only [h5, if_true, List.mem_singleton] at hm
          simp [hm, OutMsg.transcriptPayload]
        · by_cases h6 : (r.warning.getD "").startsWith "Streaming will reconnect"
          · simp only [h5, h6, if_false, if_true, List.mem_singleton] at hm
            simp [hm, OutMsg.transcriptPayload]
          · simp [h5, h6] at hm
      · simp only [h4, Bool.false_eq_true, if_false] at hm
        by_cases h7 : r.transcript = ""
        · simp [h7] at hm
        · simp only [h7, if_false, List.mem_singleton] at hm
          simp [hm, OutMsg.transcriptPayload, h7]

/-- Witness for `stt_no_empty_transcript_to_caller`: the skip equation at a
concrete empty-alternatives result, and the dispatcher guarantee at a
concrete dispatched transcript message. -/
theorem stt_no_empty_transcript_to_caller_witness :
    processResponse 2 [({ is_final := true, alternatives := [] }, none)] = [] ∧
    OutMsg.transcriptPayload
        (OutMsg.transcriptMsg false "hi" none [] 1) ≠ some "" := by
  constructor
  · have h := stt_no_empty_transcript_to_caller.1 2 true none []
    rw [h]
    rfl
  · exact stt_no_empty_transcript_to_caller.2
      { is_final := false, transcript := "hi", confidence := none, words := [],
        stream_number := 1 }
      (OutMsg.transcriptMsg false "hi" none [] 1) (by decide)

/-- C9 (counterexample to the claim as stated): a recognizer result whose
single alternative has an empty transcript makes the coordinator yield an
event that is neither a warning nor an error and whose transcript is empty —
the coordinator itself does emit empty transcripts (line 288 only sets a
flag; the yield at line 292 is unconditional). -/
theorem stt_empty_transcript_counterexample :
    processResponse 1
        [({ is_final := false,
            alternatives := [{ transcript := "", confidence := none, words := [] }] },
          none)]
      = [{ is_final := false, transcript := "", confidence := none, words := [],
           stream_number := 1, error := none, warning := none }] := by
  decide

/-- Moving one more copy of `c` across the append of a replicated run. -/
theorem replicate_append_cons (m : Nat) (c : Char) (l : List Char) :
    List.replicate m c ++ c :: l = c :: (List.replicate m c ++ l) := by
  have h : c :: (List.replicate m c ++ l) = List.replicate (m + 1) c ++ l := by
    rw [List.replicate_succ]
    rfl
  rw [h, List.replicate_succ', List.append_assoc]
  rfl

/-- Scanning a run of ordinary characters (neither sentence punctuation nor
whitespace) just moves the run into the current segment. -/
theorem splitAux_replicate_plain (c : Char) (hp : isSentencePunct c = false) :
    ∀ (n : Nat) (rest segRev : List Char),
      splitSentencesAux (List.replicate n c ++ rest) segRev [] []
        = splitSentencesAux rest (List.replicate n c ++ segRev) [] [] := by
  intro n
  induction n with
  | zero => intro rest segRev; simp
  | succ m ih =>
      intro rest segRev
      rw [List.replicate_succ, List.cons_append, splitSentencesAux]
      simp only [List.isEmpty_nil, if_true, hp, Bool.false_eq_true, if_false]
      rw [ih rest (c :: segRev), replicate_append_cons]
      rfl

/-- Scanning a run of sentence punctuation (with no whitespace seen yet)
moves the run into the pending punctuation. -/
theorem splitAux_replicate_punct (c : Char) (hp : isSentencePunct c = true) :
    ∀ (n : Nat) (rest segRev punctRev : List Char),
      splitSentencesAux (List.replicate n c ++ rest) segRev punctRev []
        = splitSentencesAux rest segRev (List.replicate n c ++ punctRev) [] := by
  intro n
  induction n with
  | zero => intro rest segRev punctRev; simp
  | succ m ih =>
      intro rest segRev punctRev
      rw [List.replicate_succ, List.cons_append, splitSentencesAux]
      cases punctRev with
      | nil =>
          simp only [List.isEmpty_nil, if_true, hp]
          rw [ih rest segRev [c], replicate_append_cons]
          rfl
      | cons p ps =>
          simp only [List.isEmpty_nil, List.isEmpty_cons, if_true, if_false,
            Bool.false_eq_true, hp]
          rw [ih rest segRev (c :: p :: ps), replicate_append_cons]
          rfl

/-- `re.split` of a text with no sentence boundary returns the whole text. -/
theorem splitSentences_replicate (n : Nat) :
    splitSentences (List.replicate n 'a') = [List.replicate n 'a'] := by
  unfold splitSentences
  have h := splitAux_replicate_plain 'a' (by decide) n [] []
  rw [List.append_nil] at h
  rw [h]
  calc splitSentencesAux [] (List.replicate n 'a') [] []
      = [(List.replicate n 'a').reverse ++ []] := by rfl
    _ = [List.replicate n 'a'] := by rw [List.append_nil, List.reverse_replicate]

/-- `re.split` of 3999 letters followed by `". "`. -/
theorem splitSentences_c4 :
    splitSentences (List.replicate 3999 'a' ++ ['.', ' '])
      = [List.replicate 3999 'a', ['.', ' '], []] := by
  unfold splitSentences
  rw [splitAux_replicate_plain 'a' (by decide), List.append_nil]
  calc splitSentencesAux ['.', ' '] (List.replicate 3999 'a') [] []
      = [(List.replicate 3999 'a').reverse, ['.', ' '], []] := by rfl
    _ = [List.replicate 3999 'a', ['.', ' '], []] := by rw [List.reverse_replicate]

/-- `re.split` of 100 letters, 4000 exclamation marks, a space and a letter:
the whole punctuation run plus the space is one captured delimiter. -/
theorem splitSentences_c5 :
    splitSentences (List.replicate 100 'a' ++ (List.replicate 4000 '!' ++ [' ', 'b']))
      = [List.replicate 100 'a', List.replicate 4000 '!' ++ [' '], ['b']] := by
  unfold splitSentences
  rw [splitAux_replicate_plain 'a' (by decide), List.append_nil,
    splitAux_replicate_punct '!' (by decide), List.append_nil]
  calc splitSentencesAux [' ', 'b'] (List.replicate 100 'a') (List.replicate 4000 '!') []
      = [(List.replicate 100 'a').reverse,
         (List.replicate 4000 '!').reverse ++ [' '], ['b']] := by rfl
    _ = [List.replicate 100 'a', List.replicate 4000 '!' ++ [' '], ['b']] := by
        rw [List.reverse_replicate, List.reverse_replicate]

/-- Branch form of one `chunkLoop` step (the `let chunks'` zeta-expanded). -/
theorem chunkLoop_cons (s p : List Char) (rest : List (List Char × List Char))
    (current : List Char) (chunks : List (List Char)) :
    chunkLoop ((s, p) :: rest) current chunks
      = if current.length + s.length + p.length > MAX_TEXT_LENGTH then
          (if s.length > MAX_TEXT_LENGTH then
            chunkLoop rest []
              ((if current.isEmpty then chunks else chunks ++ [pyStrip current])
                ++ hardSplit s)
          else
            chunkLoop rest (s ++ p)
              (if current.isEmpty then chunks else chunks ++ [pyStrip current]))
        else chunkLoop rest (current ++ s ++ p) chunks := by
  rw [chunkLoop]

/-- The final flush of `chunkLoop`. -/
theorem chunkLoop_nil (current : List Char) (chunks : List (List Char)) :
    chunkLoop [] current chunks
      = if current.isEmpty then chunks else chunks ++ [pyStrip current] := by
  rw [chunkLoop]

/-- One step of the hard split on a non-empty sentence. -/
theorem hardSplitAux_cons (fuel : Nat) (c : Char) (cs : List Char) :
    hardSplitAux (fuel + 1) (c :: cs)
      = (c :: cs).take MAX_TEXT_LENGTH
          :: hardSplitAux fuel ((c :: cs).drop MAX_TEXT_LENGTH) := rfl

/-- `str.strip()` of the C4 text: only the trailing space goes. -/
theorem pyStrip_c4 :
    pyStrip (List.replicate 3999 'a' ++ ['.', ' ']) = List.replicate 3999 'a' ++ ['.'] := by
  unfold pyStrip
  have h1 : (List.replicate 3999 'a' ++ ['.', ' ']).dropWhile isPySpace
      = List.replicate 3999 'a' ++ ['.', ' '] := rfl
  rw [h1, List.reverse_append, List.reverse_replicate]
  have h2 : ((['.', ' '] : List Char).reverse ++ List.replicate 3999 'a').dropWhile isPySpace
      = '.' :: List.replicate 3999 'a' := rfl
  rw [h2, List.reverse_cons, List.reverse_replicate]

/-- `str.strip()` of the C5 over-long accumulated chunk: only the trailing
space goes, leaving 4100 characters. -/
theorem pyStrip_c5 :
    pyStrip (List.replicate 100 'a' ++ (List.replicate 4000 '!' ++ [' ']))
      = List.replicate 100 'a' ++ List.replicate 4000 '!' := by
  unfold pyStrip
  have h1 : (List.replicate 100 'a' ++ (List.replicate 4000 '!' ++ [' '])).dropWhile isPySpace
      = List.replicate 100 'a' ++ (List.replicate 4000 '!' ++ [' ']) := rfl
  rw [h1, List.reverse_append, List.reverse_append, List.reverse_replicate,
    List.reverse_replicate]
  have h2 : ((([' '] : List Char).reverse ++ List.replicate 4000 '!')
        ++ List.replicate 100 'a').dropWhile isPySpace
      = List.replicate 4000 '!' ++ List.replicate 100 'a' := rfl
  rw [h2, List.reverse_append, List.reverse_replicate, List.reverse_replicate]

/-- Hard split of a 4001-character single sentence: a 4000-character slice
and a 1-character slice. -/
theorem hardSplit_replicate_4001 :
    hardSplit (List.replicate 4001 'a') = [List.replicate 4000 'a', ['a']] := by
  unfold hardSplit
  rw [List.length_replicate]
  rw [show (4001 : Nat) = 4000 + 1 from rfl, List.replicate_succ, hardSplitAux_cons]
  have htake : ('a' :: List.replicate 4000 'a').take MAX_TEXT_LENGTH
      = List.replicate 4000 'a' := by
    rw [show MAX_TEXT_LENGTH = 3999 + 1 from rfl, List.take_succ_cons, List.take_replicate]
    rw [show min 3999 4000 = 3999 from rfl, ← List.replicate_succ]
  have hdrop : ('a' :: List.replicate 4000 'a').drop MAX_TEXT_LENGTH = ['a'] := by
    rw [show MAX_TEXT_LENGTH = 3999 + 1 from rfl, List.drop_succ_cons, List.drop_replicate]
    rfl
  rw [htake, hdrop]
  have h2 : hardSplitAux (4000 + 0) ['a'] = [['a']] := by
    rw [show (4000 + 0 : Nat) = 3999 + 1 from rfl, hardSplitAux_cons]
    rfl
  rw [show (4000 : Nat) = 4000 + 0 from rfl, h2]

/-- `_chunk_text` of the 4001-character text `"a"*3999 + ". "`: one single
4000-character chunk — the over-limit text collapses back to one chunk. -/
theorem chunk_text_c4 :
    chunk_text (List.replicate 3999 'a' ++ ['.', ' '])
      = [List.replicate 3999 'a' ++ ['.']] := by
  unfold chunk_text
  have hlen : (List.replicate 3999 'a' ++ ['.', ' ']).length = 4001 := by
    rw [List.length_append, List.length_replicate]
    rfl
  rw [if_neg (by rw [hlen]; decide), splitSentences_c4]
  rw [show pairSentences [List.replicate 3999 'a', ['.', ' '], []]
      = [(List.replicate 3999 'a', ['.', ' ']), (([] : List Char), ([] : List Char))]
    from rfl]
  rw [chunkLoop_cons]
  have hgt1 : ([] : List Char).length + (List.replicate 3999 'a').length
      + (['.', ' '] : List Char).length > MAX_TEXT_LENGTH := by
    rw [List.length_replicate]
    decide
  have hle1 : ¬ (List.replicate 3999 'a').length > MAX_TEXT_LENGTH := by
    rw [List.length_replicate]
    decide
  rw [if_pos hgt1, if_neg hle1, if_pos (by decide : ([] : List Char).isEmpty = true)]
  rw [chunkLoop_cons]
  have hgt2 : (List.replicate 3999 'a' ++ ['.', ' ']).length + ([] : List Char).length
      + ([] : List Char).length > MAX_TEXT_LENGTH := by
    rw [List.length_append, List.length_replicate]
    decide
  have hle2 : ¬ ([] : List Char).length > MAX_TEXT_LENGTH := by decide
  rw [if_pos hgt2, if_neg hle2,
    if_neg (by decide : ¬ (List.replicate 3999 'a' ++ ['.', ' ']).isEmpty = true)]
  rw [chunkLoop_nil, pyStrip_c4]
  rfl

/-- `_chunk_text` of the 4102-character text `"a"*100 + "!"*4000 + " b"`:
the first produced chunk keeps the whole punctuation run and has 4100
characters — above `MAX_TEXT_LENGTH`. -/
theorem chunk_text_c5 :
    chunk_text (List.replicate 100 'a' ++ (List.replicate 4000 '!' ++ [' ', 'b']))
      = [List.replicate 100 'a' ++ List.replicate 4000 '!', ['b']] := by
  unfold chunk_text
  have hlen : (List.replicate 100 'a' ++ (List.replicate 4000 '!' ++ [' ', 'b'])).length
      = 4102 := by
    rw [List.length_append, List.length_append, List.length_replicate,
      List.length_replicate]
    rfl
  rw [if_neg (by rw [hlen]; decide), splitSentences_c5]
  rw [show pairSentences
        [List.replicate 100 'a', List.replicate 4000 '!' ++ [' '], ['b']]
      = [(List.replicate 100 'a', List.replicate 4000 '!' ++ [' ']),
         ((['b'] : List Char), ([] : List Char))] from rfl]
  rw [chunkLoop_cons]
  have hgt1 : ([] : List Char).length + (List.replicate 100 'a').length
      + (List.replicate 4000 '!' ++ [' ']).length > MAX_TEXT_LENGTH := by
    rw [List.length_append, List.length_replicate, List.length_replicate]
    decide
  have hle1 : ¬ (List.replicate 100 'a').length > MAX_TEXT_LENGTH := by
    rw [List.length_replicate]
    decide
  rw [if_pos hgt1, if_neg hle1, if_pos (by decide : ([] : List Char).isEmpty = true)]
  rw [chunkLoop_cons]
  have hgt2 : (List.replicate 100 'a' ++ (List.replicate 4000 '!' ++ [' '])).length
      + (['b'] : List Char).length + ([] : List Char).length > MAX_TEXT_LENGTH := by
    rw [List.length_append, List.length_append, List.length_replicate,
      List.length_replicate]
    decide
  have hle2 : ¬ (['b'] : List Char).length > MAX_TEXT_LENGTH := by decide
  rw [if_pos hgt2, if_neg hle2,
    if_neg (by decide :
      ¬ (List.replicate 100 'a' ++ (List.replicate 4000 '!' ++ [' '])).isEmpty = true)]
  rw [chunkLoop_nil, pyStrip_c5]
  rfl

/-- `_chunk_text` of 4001 identical letters: a genuine hard split into two
chunks. -/
theorem chunk_text_replicate_4001 :
    chunk_text (List.replicate 4001 'a') = [List.replicate 4000 'a', ['a']] := by
  unfold chunk_text
  rw [if_neg (by rw [List.length_replicate]; decide), splitSentences_replicate]
  rw [show pairSentences [List.replicate 4001 'a']
      = [(List.replicate 4001 'a', ([] : List Char))] from rfl]
  rw [chunkLoop_cons]
  have hgt : ([] : List Char).length + (List.replicate 4001 'a').length
      + ([] : List Char).length > MAX_TEXT_LENGTH := by
    rw [List.length_replicate]
    decide
  have hbig : (List.replicate 4001 'a').length > MAX_TEXT_LENGTH := by
    rw [List.length_replicate]
    decide
  rw [if_pos hgt, if_pos hbig, if_pos (by decide : ([] : List Char).isEmpty = true)]
  rw [hardSplit_replicate_4001, chunkLoop_nil]
  rfl

/-- The mark-merging loop yields no marks when no chunk has marks. -/
theorem mergeMarksLoop_all_empty :
    ∀ (rs : List TTSResult) (off : ℚ), (∀ r ∈ rs, r.speech_marks = []) →
      mergeMarksLoop rs off = [] := by
  intro rs
  induction rs with
  | nil => intro off _; rfl
  | cons r rest ih =>
      intro off h
      have hr : r.speech_marks = [] := h r (List.mem_cons_self r rest)
      rw [mergeMarksLoop]
      simp only [hr, List.map_nil, List.isEmpty_nil, if_true, List.nil_append]
      exact ih _ (fun r' hr' => h r' (List.mem_cons_of_mem r hr'))

/-- C3 (amended): a single-chunk result with `timepoints_available = false`
always has empty `speech_marks` (both the no-timepoints response and the
exception path), and a merged result keeps the invariant whenever all chunks
have timepoints or no chunk has marks; a mixed chunk list, however, breaks
it (see the counterexample). -/
theorem tts_no_timepoints_no_marks :
    (∀ (outcome : ProviderOutcome) (raw : Bool),
        (generate_single_chunk outcome raw).timepoints_available = false →
        (generate_single_chunk outcome raw).speech_marks = []) ∧
    (∀ (rs : List TTSResult),
        ((∀ r ∈ rs, r.timepoints_available = true) ∨ (∀ r ∈ rs, r.speech_marks = [])) →
        (merge_chunked_results rs).timepoints_available = false →
        (merge_chunked_results rs).speech_marks = []) := by
  constructor
  · intro outcome raw hav
    cases outcome with
    | failure msg => rfl
    | success timepoints audio =>
        simp only [generate_single_chunk] at hav ⊢
        simp only [Bool.not_eq_false'] at hav
        simp [hav]
  · intro rs hcase hav
    cases rs with
    | nil => rfl
    | cons first rest =>
        rcases hcase with hall | hempty
        · exfalso
          simp only [merge_chunked_results] at hav
          have : ((first :: rest).all fun x => x.timepoints_available) = true :=
            List.all_eq_true.mpr hall
          rw [this] at hav
          exact absurd hav (by simp)
        · simp only [merge_chunked_results]
          exact mergeMarksLoop_all_empty (first :: rest) 0 hempty

/-- Witness for `tts_no_timepoints_no_marks`: an exception-path chunk result
and a merge of two markless chunks. -/
theorem tts_no_timepoints_no_marks_witness :
    (generate_single_chunk (.failure "boom") false).speech_marks = [] ∧
    (merge_chunked_results
        [{ audio_content := .b64 "", speech_marks := [], timepoints_available := false },
         { audio_content := .b64 "", speech_marks := [], timepoints_available := false }]).speech_marks
      = [] := by
  constructor
  · exact tts_no_timepoints_no_marks.1 (.failure "boom") false (by decide)
  · exact tts_no_timepoints_no_marks.2
      [{ audio_content := .b64 "", speech_marks := [], timepoints_available := false },
       { audio_content := .b64 "", speech_marks := [], timepoints_available := false }]
      (Or.inr (by decide)) (by decide)

/-- C3 (counterexample to the claim as stated): merging a chunk that has
timepoints with a chunk that lacks them (both straight out of
`generate_single_chunk`, and each satisfying the per-chunk invariant) yields
`timepoints_available = false` with non-empty `speech_marks`. -/
theorem tts_no_timepoints_no_marks_counterexample :
    (∀ r ∈ [generate_single_chunk (.success [{ timeSeconds := 0, value := "viseme_0" }] [65]) false,
            generate_single_chunk (.failure "boom") false],
        r.timepoints_available = false → r.speech_marks = []) ∧
    (merge_chunked_results
        [generate_single_chunk (.success [{ timeSeconds := 0, value := "viseme_0" }] [65]) false,
         generate_single_chunk (.failure "boom") false]).timepoints_available = false ∧
    (merge_chunked_results
        [generate_single_chunk (.success [{ timeSeconds := 0, value := "viseme_0" }] [65]) false,
         generate_single_chunk (.failure "boom") false]).speech_marks ≠ [] := by
  refine ⟨by decide, rfl, ?_⟩
  simp [merge_chunked_results, mergeMarksLoop, generate_single_chunk]

/-- Shifting marks by a zero offset changes nothing. -/
theorem map_shift_zero (ms : List SpeechMark) :
    ms.map (fun m => ({ timeSeconds := m.timeSeconds + 0, value := m.value } : SpeechMark))
      = ms := by
  induction ms with
  | nil => rfl
  | cons m rest ih => simp [ih]

/-- C6 (amended): merging a single-chunk result preserves the speech marks
(the zero offset leaves every timestamp unchanged) and the audio payload,
but the merged result carries `was_chunked = true` — the merge function
marks every output as chunked, including a one-element merge.  (Inside
`generate_speech`, single-chunk texts bypass the merge entirely, so
caller-visible single-chunk results do get `was_chunked = false`.) -/
theorem tts_merge_singleton (r : TTSResult) :
    (merge_chunked_results [r]).audio_content = r.audio_content ∧
    (merge_chunked_results [r]).speech_marks = r.speech_marks ∧
    (merge_chunked_results [r]).timepoints_available = r.timepoints_available ∧
    (merge_chunked_results [r]).was_chunked = true := by
  refine ⟨rfl, ?_, by simp [merge_chunked_results], rfl⟩
  show mergeMarksLoop [r] 0 = r.speech_marks
  rw [mergeMarksLoop]
  simp only [mergeMarksLoop, List.append_nil]
  exact map_shift_zero r.speech_marks

/-- A concrete single chunk result with timepoints, used as counterexample
input. -/
def markedChunk : TTSResult :=
  { audio_content := AudioContent.b64 "QQ=="
    speech_marks := [{ timeSeconds := 0, value := "viseme_0" }]
    timepoints_available := true }

/-- C6 (counterexample to the claim as stated): a concrete one-element merge
keeps the marks and the audio, but returns `was_chunked = true`, not the
claimed `false`. -/
theorem tts_merge_singleton_counterexample :
    (merge_chunked_results [markedChunk]).speech_marks = markedChunk.speech_marks ∧
    (merge_chunked_results [markedChunk]).audio_content = markedChunk.audio_content ∧
    (merge_chunked_results [markedChunk]).was_chunked = true := by
  refine ⟨?_, rfl, rfl⟩
  show mergeMarksLoop _ 0 = _
  simp [mergeMarksLoop, markedChunk]

/-- Mark ordering by timestamp. -/
def markLE (a b : SpeechMark) : Prop := a.timeSeconds ≤ b.timeSeconds

/-- `getLastD` of a non-empty list is a member. -/
theorem getLastD_mem_of_ne_nil {α : Type} :
    ∀ (l : List α) (d : α), l ≠ [] → l.getLastD d ∈ l
  | [], _, h => absurd rfl h
  | [a], d, _ => by simp
  | a :: b :: t, d, _ => by
      rw [List.getLastD_cons]
      exact List.mem_cons_of_mem a (getLastD_mem_of_ne_nil (b :: t) a (by simp))

/-- In a list sorted by timestamp, every member's timestamp is bounded by
the last element's. -/
theorem pairwise_le_getLastD :
    ∀ (l : List SpeechMark) (d : SpeechMark), l.Pairwise markLE →
      ∀ m ∈ l, m.timeSeconds ≤ (l.getLastD d).timeSeconds
  | [], _, _, m, hm => by simp at hm
  | a :: l, d, hp, m, hm => by
      rw [List.getLastD_cons]
      rcases List.mem_cons.mp hm with rfl | hm
      · cases l with
        | nil => exact le_refl _
        | cons b t =>
            have hmem := getLastD_mem_of_ne_nil (b :: t) m (by simp)
            exact (List.pairwise_cons.mp hp).1 _ hmem
      · exact pairwise_le_getLastD l a (List.pairwise_cons.mp hp).2 m hm

/-- `getLastD` pushed through `map`. -/
theorem getLastD_map {α β : Type} (f : α → β) :
    ∀ (l : List α) (d : α), (l.map f).getLastD (f d) = f (l.getLastD d)
  | [], _ => rfl
  | a :: l, d => by
      rw [List.map_cons, List.getLastD_cons, List.getLastD_cons]
      exact getLastD_map f l a

/-- The default value of `getLastD` is irrelevant on a non-empty list. -/
theorem getLastD_default_irrel {α : Type} (l : List α) (h : l ≠ []) (d₁ d₂ : α) :
    l.getLastD d₁ = l.getLastD d₂ := by
  cases l with
  | nil => exact absurd rfl h
  | cons a t => rw [List.getLastD_cons, List.getLastD_cons]

/-- The last shifted mark of a non-empty chunk is its last mark, shifted. -/
theorem shifted_getLastD (ms : List SpeechMark) (off : ℚ) (h : ms ≠ []) :
    ((ms.map (fun m =>
        ({ timeSeconds := m.timeSeconds + off, value := m.value } : SpeechMark))).getLastD
          { timeSeconds := 0, value := "" }).timeSeconds
      = (ms.getLastD { timeSeconds := 0, value := "" }).timeSeconds + off := by
  rw [getLastD_default_irrel
      (ms.map (fun m =>
        ({ timeSeconds := m.timeSeconds + off, value := m.value } : SpeechMark)))
      (by simpa using h)
      { timeSeconds := 0, value := "" }
      ({ timeSeconds := (0 : ℚ) + off, value := "" })]
  rw [show ({ timeSeconds := (0 : ℚ) + off, value := "" } : SpeechMark)
      = (fun (m : SpeechMark) =>
          ({ timeSeconds := m.timeSeconds + off, value := m.value } : SpeechMark))
          ({ timeSeconds := 0, value := "" } : SpeechMark) from rfl]
  rw [getLastD_map]

/-- Every merged mark's timestamp is at least the running offset, provided
all chunk timestamps are non-negative. -/
theorem mergeMarksLoop_lower_bound :
    ∀ (rs : List TTSResult) (off : ℚ),
      (∀ r ∈ rs, ∀ m ∈ r.speech_marks, 0 ≤ m.timeSeconds) →
      ∀ m ∈ mergeMarksLoop rs off, off ≤ m.timeSeconds := by
  intro rs
  induction rs with
  | nil => intro off _ m hm; simp [mergeMarksLoop] at hm
  | cons r rest ih =>
      intro off hnn m hm
      simp only [mergeMarksLoop, List.mem_append] at hm
      rcases hm with hm | hm
      · obtain ⟨m0, hm0, rfl⟩ := List.mem_map.mp hm
        have h0 := hnn r (List.mem_cons_self r rest) m0 hm0
        show off ≤ m0.timeSeconds + off
        linarith
      · have hnn' : ∀ r' ∈ rest, ∀ m' ∈ r'.speech_marks, 0 ≤ m'.timeSeconds :=
          fun r' hr' => hnn r' (List.mem_cons_of_mem r hr')
        refine le_trans ?_ (ih _ hnn' m hm)
        by_cases hemp : r.speech_marks.isEmpty
        · simp [hemp]
        · simp only [hemp, Bool.false_eq_true, if_false]
          have hne : r.speech_marks ≠ [] := by
            simpa [List.isEmpty_iff] using hemp
          rw [shifted_getLastD r.speech_marks off hne]
          have hlast : 0 ≤ (r.speech_marks.getLastD
              { timeSeconds := 0, value := "" }).timeSeconds :=
            hnn r (List.mem_cons_self r rest) _ (getLastD_mem_of_ne_nil _ _ hne)
          linarith

/-- The merged mark sequence is sorted when each chunk is sorted and all
timestamps are non-negative. -/
theorem mergeMarksLoop_pairwise :
    ∀ (rs : List TTSResult) (off : ℚ),
      (∀ r ∈ rs, r.speech_marks.Pairwise markLE) →
      (∀ r ∈ rs, ∀ m ∈ r.speech_marks, 0 ≤ m.timeSeconds) →
      (mergeMarksLoop rs off).Pairwise markLE := by
  intro rs
  induction rs with
  | nil => intro off _ _; simp [mergeMarksLoop]
  | cons r rest ih =>
      intro off hs hnn
      have hs' : ∀ r' ∈ rest, r'.speech_marks.Pairwise markLE :=
        fun r' hr' => hs r' (List.mem_cons_of_mem r hr')
      have hnn' : ∀ r' ∈ rest, ∀ m' ∈ r'.speech_marks, 0 ≤ m'.timeSeconds :=
        fun r' hr' => hnn r' (List.mem_cons_of_mem r hr')
      simp only [mergeMarksLoop]
      rw [List.pairwise_append]
      refine ⟨?_, ih _ hs' hnn', ?_⟩
      · exact (hs r (List.mem_cons_self r rest)).map _
          (fun a b hab => by
            show _ + off ≤ _ + off
            exact add_le_add_right hab off)
      · intro a ha b hb
        obtain ⟨ma, hma, rfl⟩ := List.mem_map.mp ha
        have hne : r.speech_marks ≠ [] := List.ne_nil_of_mem hma
        have hemp : r.speech_marks.isEmpty = false := by
          simpa [List.isEmpty_iff] using hne
        have hbound := mergeMarksLoop_lower_bound rest _ hnn' b (by
          simpa only [hemp, Bool.false_eq_true, if_false] using hb)
        rw [shifted_getLastD r.speech_marks off hne] at hbound
        have hlast := pairwise_le_getLastD r.speech_marks
          { timeSeconds := 0, value := "" } (hs r (List.mem_cons_self r rest)) ma hma
        show ma.timeSeconds + off ≤ b.timeSeconds
        linarith

/-- `offsetAfter` distributes over append. -/
theorem offsetAfter_append :
    ∀ (xs ys : List TTSResult) (off : ℚ),
      offsetAfter (xs ++ ys) off = offsetAfter ys (offsetAfter xs off) := by
  intro xs
  induction xs with
  | nil => intro ys off; rfl
  | cons x xs ih =>
      intro ys off
      rw [List.cons_append, offsetAfter, offsetAfter]
      exact ih ys _

/-- The offset accumulated by one chunk with marks: its last (shifted)
timestamp plus the half-second gap. -/
theorem offsetAfter_single (r : TTSResult) (off : ℚ) (h : r.speech_marks ≠ []) :
    offsetAfter [r] off
      = (r.speech_marks.getLastD { timeSeconds := 0, value := "" }).timeSeconds
          + off + 1/2 := by
  have hemp : r.speech_marks.isEmpty = false := by simpa [List.isEmpty_iff] using h
  rw [offsetAfter, offsetAfter]
  simp only [hemp, Bool.false_eq_true, if_false]
  rw [shifted_getLastD r.speech_marks off h]

/-- C7 (amended): if every chunk's own mark timestamps are non-decreasing
*and non-negative*, the merged result of `_merge_chunked_results` has
non-decreasing timestamps across the whole sequence, and every merged mark
of the chunks after a chunk `r` with marks (in particular the first mark of
the next chunk) is at least `r`'s last merged timestamp plus the fixed
0.5-second inter-chunk gap. -/
theorem tts_merged_marks_monotone (rs : List TTSResult)
    (hsort : ∀ r ∈ rs, r.speech_marks.Pairwise markLE)
    (hnn : ∀ r ∈ rs, ∀ m ∈ r.speech_marks, 0 ≤ m.timeSeconds) :
    (merge_chunked_results rs).speech_marks.Pairwise markLE ∧
    (∀ (pre : List TTSResult) (r : TTSResult) (post : List TTSResult),
        rs = pre ++ r :: post → r.speech_marks ≠ [] →
        ∀ m ∈ mergeMarksLoop post (offsetAfter (pre ++ [r]) 0),
          (r.speech_marks.getLastD { timeSeconds := 0, value := "" }).timeSeconds
            + offsetAfter pre 0 + 1/2 ≤ m.timeSeconds) := by
  constructor
  · cases rs with
    | nil => simp [merge_chunked_results]
    | cons first rest =>
        show (mergeMarksLoop (first :: rest) 0).Pairwise markLE
        exact mergeMarksLoop_pairwise _ 0 hsort hnn
  · intro pre r post hrs hne m hm
    have hnn' : ∀ r' ∈ post, ∀ m' ∈ r'.speech_marks, 0 ≤ m'.timeSeconds := by
      intro r' hr'
      refine hnn r' ?_
      rw [hrs]
      exact List.mem_append_right pre (List.mem_cons_of_mem r hr')
    have hb := mergeMarksLoop_lower_bound post _ hnn' m hm
    rw [offsetAfter_append, offsetAfter_single r _ hne] at hb
    exact hb

/-- A one-mark chunk at timestamp 0 (witness/counterexample input). -/
def zeroMarkChunk : TTSResult :=
  { audio_content := AudioContent.b64 ""
    speech_marks := [{ timeSeconds := 0, value := "a" }]
    timepoints_available := true }

/-- A one-mark chunk at timestamp 0 with a different label. -/
def zeroMarkChunk2 : TTSResult :=
  { audio_content := AudioContent.b64 ""
    speech_marks := [{ timeSeconds := 0, value := "b" }]
    timepoints_available := true }

/-- Witness for `tts_merged_marks_monotone`: two concrete sorted,
non-negative one-mark chunks; the merged sequence is sorted and the second
chunk's merged mark clears the half-second gap. -/
theorem tts_merged_marks_monotone_witness :
    (merge_chunked_results [zeroMarkChunk, zeroMarkChunk2]).speech_marks.Pairwise markLE ∧
    (zeroMarkChunk.speech_marks.getLastD { timeSeconds := 0, value := "" }).timeSeconds
        + offsetAfter [] 0 + 1/2
      ≤ SpeechMark.timeSeconds
          { timeSeconds := 0 + offsetAfter ([] ++ [zeroMarkChunk]) 0, value := "b" } := by
  have h := tts_merged_marks_monotone [zeroMarkChunk, zeroMarkChunk2]
    (by simp [zeroMarkChunk, zeroMarkChunk2])
    (by simp [zeroMarkChunk, zeroMarkChunk2])
  refine ⟨h.1, ?_⟩
  exact h.2 [] zeroMarkChunk [zeroMarkChunk2] rfl (by simp [zeroMarkChunk])
    { timeSeconds := 0 + offsetAfter ([] ++ [zeroMarkChunk]) 0, value := "b" }
    (by simp [mergeMarksLoop, zeroMarkChunk2])

/-- A one-mark chunk with a negative timestamp. -/
def negMarkChunk : TTSResult :=
  { audio_content := AudioContent.b64 ""
    speech_marks := [{ timeSeconds := -1, value := "b" }]
    timepoints_available := true }

/-- C7 (counterexample to the claim as stated): the claim has no
non-negativity hypothesis, but with a chunk whose single mark sits at -1
seconds (each chunk trivially sorted) the merged sequence is *not*
non-decreasing: it is `[0, -1/2]`. -/
theorem tts_merged_marks_monotone_counterexample :
    (∀ r ∈ [zeroMarkChunk, negMarkChunk], r.speech_marks.Pairwise markLE) ∧
    ¬ (merge_chunked_results [zeroMarkChunk, negMarkChunk]).speech_marks.Pairwise markLE := by
  constructor
  · simp [zeroMarkChunk, negMarkChunk]
  · intro hp
    have hmarks : (merge_chunked_results [zeroMarkChunk, negMarkChunk]).speech_marks
        = [{ timeSeconds := 0 + 0, value := "a" },
           { timeSeconds := -1 + (0 + 0 + 1/2), value := "b" }] := rfl
    rw [hmarks] at hp
    have h12 := (List.pairwise_cons.mp hp).1 _ (List.mem_singleton.mpr rfl)
    norm_num [markLE] at h12

/-- Both constructors of a single chunk result leave `was_chunked = false`. -/
theorem generate_single_chunk_was_chunked (o : ProviderOutcome) (raw : Bool) :
    (generate_single_chunk o raw).was_chunked = false := by
  cases o <;> rfl

/-- The merge marks every result as chunked. -/
theorem merge_chunked_results_was_chunked (rs : List TTSResult) :
    (merge_chunked_results rs).was_chunked = true := by
  cases rs <;> rfl

/-- With the service available and a voice resolved, `generate_speech` is
the chunking dispatch: one provider call below two chunks, a merge of the
per-chunk calls otherwise. -/
theorem generate_speech_eq_chunking (vm : List (String × List String))
    (det : String) (outs : Nat → ProviderOutcome) (text : List Char) (lang : String)
    (vg vn : Option String) (raw : Bool) (v : String)
    (hv : resolvedVoice vm det lang vn = some v) :
    generate_speech true vm det outs text lang vg vn raw
      = if (chunk_text text).length > 1 then
          merge_chunked_results ((List.range (chunk_text text).length).map
            (fun i => generate_single_chunk (outs i) raw))
        else generate_single_chunk (outs 0) raw := by
  simp only [generate_speech, Bool.not_true, Bool.false_eq_true, if_false, hv]

/-- With the service available and no voice resolvable, `generate_speech`
returns the empty no-voice error result. -/
theorem generate_speech_eq_novoice (vm : List (String × List String))
    (det : String) (outs : Nat → ProviderOutcome) (text : List Char) (lang : String)
    (vg vn : Option String) (raw : Bool)
    (hv : resolvedVoice vm det lang vn = none) :
    generate_speech true vm det outs text lang vg vn raw
      = { audio_content := AudioContent.b64 ""
          speech_marks := []
          timepoints_available := false
          error := some ("No suitable voice found for language '"
            ++ (if lang = "auto" then det else lang) ++ "'")
          was_chunked := false } := by
  simp only [generate_speech, Bool.not_true, Bool.false_eq_true, if_false, hv]

/-- C4 (amended): text within `MAX_TEXT_LENGTH` always gives the singleton
chunk list `[text]` and an unchunked result; for longer text the chunking
algorithm runs but may itself produce a single chunk (see the
counterexample), and the caller-visible `was_chunked` flag is true exactly
when `_chunk_text` produced more than one chunk. -/
theorem tts_chunking_threshold (text : List Char) (vm : List (String × List String))
    (det : String) (outs : Nat → ProviderOutcome) (lang : String)
    (vg vn : Option String) (raw : Bool) (v : String)
    (hv : resolvedVoice vm det lang vn = some v) :
    (text.length ≤ MAX_TEXT_LENGTH → chunk_text text = [text] ∧
      (generate_speech true vm det outs text lang vg vn raw).was_chunked = false) ∧
    ((generate_speech true vm det outs text lang vg vn raw).was_chunked = true
      ↔ (chunk_text text).length > 1) := by
  have hgen := generate_speech_eq_chunking vm det outs text lang vg vn raw v hv
  constructor
  · intro hle
    have hct : chunk_text text = [text] := by
      unfold chunk_text
      rw [if_pos hle]
    refine ⟨hct, ?_⟩
    rw [hgen, hct, if_neg (by simp)]
    exact generate_single_chunk_was_chunked _ _
  · constructor
    · intro h
      by_contra hlen
      rw [hgen, if_neg hlen, generate_single_chunk_was_chunked] at h
      exact absurd h (by simp)
    · intro hlen
      rw [hgen, if_pos hlen]
      exact merge_chunked_results_was_chunked _

/-- Witness for `tts_chunking_threshold`: a 2-character text stays one
unchunked call; a 4001-character hard-split text really is chunked. -/
theorem tts_chunking_threshold_witness :
    chunk_text ['h', 'i'] = [['h', 'i']] ∧
    (generate_speech true [("en-US", ["en-US-Wavenet-F"])] "en-US"
        (fun _ => ProviderOutcome.failure "x") ['h', 'i'] "en-US" none none
        false).was_chunked = false ∧
    (generate_speech true [("en-US", ["en-US-Wavenet-F"])] "en-US"
        (fun _ => ProviderOutcome.failure "x") (List.replicate 4001 'a') "en-US" none none
        false).was_chunked = true := by
  have h1 := tts_chunking_threshold ['h', 'i'] [("en-US", ["en-US-Wavenet-F"])] "en-US"
    (fun _ => ProviderOutcome.failure "x") "en-US" none none false "en-US-Wavenet-F"
    (by decide)
  have h2 := tts_chunking_threshold (List.replicate 4001 'a')
    [("en-US", ["en-US-Wavenet-F"])] "en-US"
    (fun _ => ProviderOutcome.failure "x") "en-US" none none false "en-US-Wavenet-F"
    (by decide)
  refine ⟨(h1.1 (by decide)).1, (h1.1 (by decide)).2, ?_⟩
  refine h2.2.mpr ?_
  rw [chunk_text_replicate_4001]
  decide

/-- C4 (counterexample to the claim as stated): the 4001-character text
`"a"*3999 + ". "` is strictly over the limit, yet `_chunk_text` returns a
single chunk (the trailing delimiter is stripped back under the limit) and
`generate_speech` takes the unchunked path, so `was_chunked = false`. -/
theorem tts_chunking_threshold_counterexample :
    (List.replicate 3999 'a' ++ ['.', ' ']).length = 4001 ∧
    (chunk_text (List.replicate 3999 'a' ++ ['.', ' '])).length = 1 ∧
    (generate_speech true [("en-US", ["en-US-Wavenet-F"])] "en-US"
        (fun _ => ProviderOutcome.failure "x") (List.replicate 3999 'a' ++ ['.', ' '])
        "en-US" none none false).was_chunked = false := by
  refine ⟨?_, ?_, ?_⟩
  · rw [List.length_append, List.length_replicate]
    rfl
  · rw [chunk_text_c4]
    rfl
  · rw [generate_speech_eq_chunking _ _ _ _ _ _ _ _ "en-US-Wavenet-F" (by decide),
      chunk_text_c4, if_neg (by decide)]
    exact generate_single_chunk_was_chunked _ _

/-- C5 (the code against its own contract): on the 4102-character input
`"a"*100 + "!"*4000 + " b"` the chunker returns a first chunk of 4100
characters — beyond `MAX_TEXT_LENGTH` — because the captured sentence
delimiter is not counted against the hard-split check. -/
theorem tts_chunk_oversize_bug :
    ((chunk_text (List.replicate 100 'a' ++ (List.replicate 4000 '!' ++ [' ', 'b']))).map
        List.length) = [4100, 1] ∧
    ∃ c ∈ chunk_text (List.replicate 100 'a' ++ (List.replicate 4000 '!' ++ [' ', 'b'])),
      MAX_TEXT_LENGTH < c.length := by
  constructor
  · rw [chunk_text_c5]
    simp only [List.map_cons, List.map_nil, List.length_append, List.length_replicate]
    rfl
  · refine ⟨List.replicate 100 'a' ++ List.replicate 4000 '!', ?_, ?_⟩
    · rw [chunk_text_c5]
      exact List.mem_cons_self _ _
    · rw [List.length_append, List.length_replicate, List.length_replicate]
      decide

/-- The per-chunk exception message is never the empty string. -/
theorem err_msg_ne_empty (msg : String) :
    ("Error generating TTS audio: " ++ msg) ≠ "" := by
  intro h
  have hd := congrArg String.data h
  rw [String.data_append, (rfl : ("" : String).data = [])] at hd
  rcases List.append_eq_nil.mp hd with ⟨h1, -⟩
  exact absurd h1 (by decide)

/-- A chunk with a truthy error string forces a non-`None` merged error. -/
theorem merge_error_of_chunk_error (rs : List TTSResult) (r : TTSResult)
    (hr : r ∈ rs) (e : String) (he : r.error = some e) (hne : e ≠ "") :
    (merge_chunked_results rs).error ≠ none := by
  cases rs with
  | nil => simp at hr
  | cons first rest =>
      simp only [merge_chunked_results]
      have hmem : e ∈ (first :: rest).filterMap (fun r =>
          match r.error with
          | some e => if e = "" then none else some e
          | none => none) := by
        rw [List.mem_filterMap]
        refine ⟨r, hr, ?_⟩
        rw [he]
        simp [hne]
      have hnil : ((first :: rest).filterMap (fun r =>
          match r.error with
          | some e => if e = "" then none else some e
          | none => none)).isEmpty = false := by
        rw [List.isEmpty_eq_false_iff_exists_mem]
        exact ⟨e, hmem⟩
      simp [hnil]

/-- C10: `generate_speech` is total over its public interface — in the
model it is a total function, every exception path of the source being a
caught branch returning a value — and every failure is reported through a
non-`None` `error` field: service unavailable and no-voice both return an
error with empty audio and no marks; a provider failure on the single-chunk
path, or in any chunk of a chunked call, yields a result whose `error` is
not `None`. -/
theorem tts_generate_speech_total :
    (∀ (vm : List (String × List String)) (det : String) (outs : Nat → ProviderOutcome)
        (text : List Char) (lang : String) (vg vn : Option String) (raw : Bool),
        (generate_speech false vm det outs text lang vg vn raw).error
            = some "TTS service not available" ∧
        (generate_speech false vm det outs text lang vg vn raw).audio_content
            = AudioContent.b64 "" ∧
        (generate_speech false vm det outs text lang vg vn raw).speech_marks = []) ∧
    (∀ (vm : List (String × List String)) (det : String) (outs : Nat → ProviderOutcome)
        (text : List Char) (lang : String) (vg vn : Option String) (raw : Bool),
        resolvedVoice vm det lang vn = none →
        (generate_speech true vm det outs text lang vg vn raw).error ≠ none ∧
        (generate_speech true vm det outs text lang vg vn raw).audio_content
            = AudioContent.b64 "" ∧
        (generate_speech true vm det outs text lang vg vn raw).speech_marks = []) ∧
    (∀ (vm : List (String × List String)) (det : String) (outs : Nat → ProviderOutcome)
        (text : List Char) (lang : String) (vg vn : Option String) (raw : Bool)
        (v msg : String),
        resolvedVoice vm det lang vn = some v →
        ¬ (chunk_text text).length > 1 → outs 0 = .failure msg →
        (generate_speech true vm det outs text lang vg vn raw).error ≠ none) ∧
    (∀ (vm : List (String × List String)) (det : String) (outs : Nat → ProviderOutcome)
        (text : List Char) (lang : String) (vg vn : Option String) (raw : Bool)
        (v msg : String) (i : Nat),
        resolvedVoice vm det lang vn = some v →
        (chunk_text text).length > 1 → i < (chunk_text text).length →
        outs i = .failure msg →
        (generate_speech true vm det outs text lang vg vn raw).error ≠ none) := by
  refine ⟨?_, ?_, ?_, ?_⟩
  · intro vm det outs text lang vg vn raw
    exact ⟨rfl, rfl, rfl⟩
  · intro vm det outs text lang vg vn raw hv
    rw [generate_speech_eq_novoice vm det outs text lang vg vn raw hv]
    exact ⟨by simp, rfl, rfl⟩
  · intro vm det outs text lang vg vn raw v msg hv hlen houts
    rw [generate_speech_eq_chunking vm det outs text lang vg vn raw v hv, if_neg hlen,
      houts]
    simp [generate_single_chunk]
  · intro vm det outs text lang vg vn raw v msg i hv hlen hi houts
    rw [generate_speech_eq_chunking vm det outs text lang vg vn raw v hv, if_pos hlen]
    refine merge_error_of_chunk_error _ (generate_single_chunk (outs i) raw) ?_
      ("Error generating TTS audio: " ++ msg) ?_ (err_msg_ne_empty msg)
    · exact List.mem_map.mpr ⟨i, List.mem_range.mpr hi, rfl⟩
    · rw [houts]
      rfl

/-- Witness for `tts_generate_speech_total`: all four failure modes at
concrete inputs — unavailable service, empty voice catalog, a failing
provider call on a short text, and a failing provider call on a chunk of a
4001-character text. -/
theorem tts_generate_speech_total_witness :
    (generate_speech false [] "en-US" (fun _ => ProviderOutcome.failure "x") ['h']
        "en-US" none none false).error = some "TTS service not available" ∧
    (generate_speech true [] "en-US" (fun _ => ProviderOutcome.failure "x") ['h']
        "en-US" none none false).error ≠ none ∧
    (generate_speech true [("en-US", ["en-US-Wavenet-F"])] "en-US"
        (fun _ => ProviderOutcome.failure "x") ['h', 'i'] "en-US" none none
        false).error ≠ none ∧
    (generate_speech true [("en-US", ["en-US-Wavenet-F"])] "en-US"
        (fun _ => ProviderOutcome.failure "x") (List.replicate 4001 'a') "en-US" none none
        false).error ≠ none := by
  refine ⟨?_, ?_, ?_, ?_⟩
  · exact (tts_generate_speech_total.1 [] "en-US" (fun _ => ProviderOutcome.failure "x")
      ['h'] "en-US" none none false).1
  · exact (tts_generate_speech_total.2.1 [] "en-US" (fun _ => ProviderOutcome.failure "x")
      ['h'] "en-US" none none false (by decide)).1
  · exact tts_generate_speech_total.2.2.1 [("en-US", ["en-US-Wavenet-F"])] "en-US"
      (fun _ => ProviderOutcome.failure "x") ['h', 'i'] "en-US" none none false
      "en-US-Wavenet-F" "x" (by decide) (by decide) rfl
  · exact tts_generate_speech_total.2.2.2 [("en-US", ["en-US-Wavenet-F"])] "en-US"
      (fun _ => ProviderOutcome.failure "x") (List.replicate 4001 'a') "en-US" none none
      false "en-US-Wavenet-F" "x" 0 (by decide)
      (by rw [chunk_text_replicate_4001]; decide)
      (by rw [chunk_text_replicate_4001]; decide) rfl
